import Mathlib

/-!
Verification of the smsgate server against its specification.

The definitions below are a shallow embedding of the Python sources under
src/server/: helper.py, modemconfig.py, modem.py, modempool.py,
smsrouter.py and rpcserver.py.  Python strings become Lean String (or
List Char where prefix arithmetic matters), Python dicts become
association lists with unique keys or total functions, machine reals used
only for comparisons become Rat, and timestamps become Int seconds.
External collaborators (bcrypt, the gsmmodem library, the TLS transport)
are modelled as abstract parameters or as enumerated result types, as the
specification designates them out of scope.
-/

namespace SmsGate

/-! ## helper.py -/

/-- Embedding of helper.cleanup_phone_number: drop every character that is
neither a plus sign nor a digit, then accept exactly the strings matching
the pattern of a plus sign followed by one or more digits. -/
def matchesPlusDigits : List Char → Bool
  | '+' :: rest => !rest.isEmpty && rest.all Char.isDigit
  | _ => false

/-- Embedding of helper.cleanup_phone_number over String. -/
def cleanup_phone_number (s : String) : Option String :=
  let stripped := s.toList.filter (fun c => c == '+' || c.isDigit)
  if matchesPlusDigits stripped then some (String.mk stripped) else none

/-- Embedding of helper.check_token_in_list.  bcrypt checking
(helper.check_password) is an external collaborator and is passed in as
the abstract predicate cp taking the clear-text token and a stored hash. -/
def check_token_in_list (cp : String → String → Bool) (token : String)
    (token_list : List String) : Bool :=
  token_list.any (fun t => cp token t)

/-- Embedding of the loop of helper.get_highest_warning_level, threading
the running highest level. -/
def highestAux : String → List String → String
  | highest, [] => highest
  | highest, i :: rest =>
    if i = "CRITICAL" then "CRITICAL"
    else if i = "WARNING" && highest = "OK" then highestAux "WARNING" rest
    else highestAux highest rest

/-- Embedding of helper.get_highest_warning_level. -/
def get_highest_warning_level (state_list : List String) : String :=
  highestAux "OK" state_list

/-! ## modem.py: signal strength mapping -/

/-- The literal dBm table of Modem.get_current_signal_dB for RSSI 2..30. -/
def signal_dB_table : List Int :=
  [-109, -107, -105, -103, -101, -99, -97, -95, -93, -91, -89, -87, -85,
   -83, -81, -79, -77, -75, -73, -71, -69, -67, -65, -63, -61, -59, -57,
   -55, -53]

/-- Embedding of Modem.get_current_signal_dB.  The argument is the stored
RSSI value self.current_signal, an integer that may also be -1 or 99. -/
def get_current_signal_dB (i : Int) : Int :=
  if 2 ≤ i ∧ i ≤ 30 then signal_dB_table.getD (i - 2).toNat 0
  else if 31 ≤ i then -51
  else -113

/-! ## modem.py: self-test schedule predicate -/

/-- The three configured self-test intervals of ModemConfig. -/
inductive SelfTestInterval
  | daily
  | weekly
  | monthly
  deriving DecidableEq

/-- A calendar date reduced to the two observations the health check
makes: the weekday index (Python datetime convention, Monday = 0) and the
day of month. -/
structure HDate where
  weekday : Nat
  day : Nat
  deriving DecidableEq

/-- Embedding of the day_matches computation in
Modem._really_do_health_check.  In the weekly branch the source evaluates
the Python expression now.weekday == 1, where weekday is an uninvoked
bound method; comparing a bound method with the integer 1 is False for
every date, so the branch never sets day_matches. -/
def day_matches (interval : SelfTestInterval) (now : HDate) : Bool :=
  match interval with
  | .monthly => now.day == 1
  | .weekly => false
  | .daily => true

/-! ## modemconfig.py -/

/-- Embedding of the ModemConfig dataclass, restricted to the fields that
ModemConfig.verify reads.  Monetary thresholds are rationals. -/
structure ModemConfig where
  identifier : String
  enabled : Bool
  port : String
  phone_number : String
  ussd_account_balance : Option String
  ussd_account_balance_regexp : Option String
  account_balance_warning : Rat
  account_balance_critical : Rat
  prefixes : List String
  health_check_interval : Int
  sms_self_test_interval : String
  imei : Option String

/-- Embedding of ModemConfig.verify.  Branches that only log a warning and
do not return are omitted, since they do not affect the result. -/
def ModemConfig.verify (c : ModemConfig) : Bool :=
  if !c.enabled then true
  else if c.account_balance_critical > c.account_balance_warning then false
  else if c.prefixes.any (fun p => (cleanup_phone_number p).isNone) then false
  else if (cleanup_phone_number c.phone_number).isNone then false
  else if !(["monthly", "weekly", "daily"].contains c.sms_self_test_interval) then false
  else if c.port.toList.contains '*'
      && (c.imei.isNone || c.imei == some "") then false
  else true

/-! ## smsrouter.py -/

/-- Embedding of the candidate enumeration loop of SmsRouter.get: the
source iterates i over range(0, len(prefix) - 1) and tests the key
prefix[0 : len(prefix) - i] against the route table.  Phone numbers are
modelled as lists of characters so that slicing is List.take. -/
def testedKeys (p : List Char) : List (List Char) :=
  (List.range (p.length - 1)).map (fun i => p.take (p.length - i))

/-- Enumeration of lookup keys as the specification words them: for
i = 1 .. |p|-1 test the strict prefix p[0 : |p|-i].  Kept separate from
testedKeys so the two can be compared. -/
def specTestedKeys (p : List Char) : List (List Char) :=
  (List.range (p.length - 1)).map (fun i => p.take (p.length - (i + 1)))

/-- Embedding of the SmsRouter state: the route table maps a key to the
set of modem identifiers registered for it, costs and health are read per
identifier.  Health models self.modem[c].get_health_state()[0]; the
source spells the field self.modems, which the specification directs to
read as a rename of the stored field self.modem. -/
structure SmsRouter where
  routes : List (List Char × List String)
  costs : String → Rat
  health : String → String

/-- Embedding of the candidate-set construction in SmsRouter.get: for
every tested key present in the route table, every identifier registered
there whose health state is OK becomes a candidate. -/
def SmsRouter.candidates (r : SmsRouter) (p : List Char) : List String :=
  (testedKeys p).flatMap (fun k =>
    ((r.routes.lookup k).getD []).filter (fun c => r.health c == "OK"))

/-- Embedding of SmsRouter.get: among the candidates, return one with the
lowest cost, or none when there is no candidate. -/
def SmsRouter.get (r : SmsRouter) (p : List Char) : Option String :=
  let cands := r.candidates p
  if cands.isEmpty then none
  else cands.foldl (fun best c =>
    match best with
    | none => some c
    | some b => if r.costs c < r.costs b then some c else some b) none

/-! ## modem.py: sent-SMS bookkeeping -/

/-- Delivery status constants of the gsmmodem SentSms handle stored by
Modem._do_send_sms; the library is external, only its status field is
observed. -/
inductive SentStatus
  | enroute
  | delivered
  | failed
  deriving DecidableEq

/-- The slice of Modem state that the sent-SMS bookkeeping touches: the
dict self.sent_sms mapping an SMS id to the send handle, modelled as an
association list with unique keys. -/
structure ModemRec where
  sent_sms : List (String × SentStatus)
  deriving DecidableEq

/-- Membership test sms_id in self.sent_sms. -/
def ModemRec.containsId (m : ModemRec) (sms_id : String) : Bool :=
  m.sent_sms.any (fun e => e.1 == sms_id)

/-- Embedding of Modem.get_delivery_status: true exactly when the id is
known and its handle reports DELIVERED. -/
def ModemRec.get_delivery_status (m : ModemRec) (sms_id : String) : Bool :=
  match m.sent_sms.lookup sms_id with
  | some st => st == SentStatus.delivered
  | none => false

/-- Embedding of Modem.cleanup: when the id is present in self.sent_sms,
delete the entry (a dict del, rendered as a key filter on the unique-key
association list) and return true; otherwise return false.  The source
consults no delivery status here. -/
def ModemRec.cleanup (m : ModemRec) (sms_id : String) : Bool × ModemRec :=
  if m.containsId sms_id then
    (true, ⟨m.sent_sms.filter (fun e => !(e.1 == sms_id))⟩)
  else
    (false, m)

/-! ## sms.py and modempool.py -/

/-- Embedding of the SMS record; timestamps are integer seconds, so
SMS.get_age at clock value now is now minus the stored timestamp. -/
structure SMSrec where
  sms_id : String
  recipient : String
  sender : String
  text : String
  timestamp : Int
  deriving DecidableEq

/-- The slice of ModemPool state that the claims touch.  The registered
modems form a total function from identifier to modem record, mirroring
the source invariant that sent_sms and the per-modem tables only ever
name registered identifiers. -/
structure PoolState where
  modems : String → ModemRec
  sms_queue_out : List SMSrec
  sent_sms : List (String × String)
  stats_sent : String → Nat
  buffered_sms : List (String × List (String × SMSrec))

/-- Embedding of the first loop of ModemPool._cleanup: walk the
sent-index in order, call cleanup on the owning modem (threading each
modem's updated table), and collect the ids for which the call returned
true. -/
def cleanupSentLoop :
    List (String × String) → (String → ModemRec) → List String × (String → ModemRec)
  | [], ms => ([], ms)
  | (sms_id, ident) :: rest, ms =>
    let r := (ms ident).cleanup sms_id
    let ms2 := fun x => if x == ident then r.2 else ms x
    let tail := cleanupSentLoop rest ms2
    (if r.1 then sms_id :: tail.1 else tail.1, tail.2)

/-- Embedding of the sent-index phase of ModemPool._cleanup: the ids
collected in _tmp are deleted from self.sent_sms (a dict del per
collected key, rendered as a filter on the unique-key association
list). -/
def PoolState.cleanupSent (pool : PoolState) : PoolState :=
  let res := cleanupSentLoop pool.sent_sms pool.modems
  { pool with
      modems := res.2
      sent_sms := pool.sent_sms.filter (fun e => !(res.1.contains e.1)) }

/-- Embedding of the inbound-buffer phase of ModemPool._cleanup: every
buffered SMS whose age exceeds 60 seconds is collected and then deleted
from its per-identifier dict; on unique-key buckets this is a filter by
the age test. -/
def PoolState.cleanupBuffered (now : Int) (pool : PoolState) : PoolState :=
  { pool with
      buffered_sms := pool.buffered_sms.map (fun b =>
        (b.1, b.2.filter (fun e => !(decide (60 < now - e.2.timestamp))))) }

/-- Embedding of ModemPool._cleanup: the sent-index phase followed by the
inbound-buffer phase. -/
def PoolState.cleanup (now : Int) (pool : PoolState) : PoolState :=
  PoolState.cleanupBuffered now pool.cleanupSent

/-! ## rpcserver.py -/

/-- An XMLRPC fault: integer fault code and message, as raised by
xmlrpc.Fault in the source. -/
structure Fault where
  faultCode : Int
  faultString : String
  deriving DecidableEq

/-- The slice of the RPC configuration that xmlrpc_send_sms reads: the
feature flag enable_send_sms and the send_sms token list of bcrypt
hashes. -/
structure ApiConfig where
  enable_send_sms : Bool
  token_send_sms : List String

/-- Embedding of ModemPool.send_sms: enqueue the SMS on the outbound pool
queue and return its id.  The event signalling is thread plumbing with no
observable state here. -/
def PoolState.send_sms (pool : PoolState) (s : SMSrec) : String × PoolState :=
  (s.sms_id, { pool with sms_queue_out := pool.sms_queue_out ++ [s] })

/-- Embedding of RPCServer.xmlrpc_send_sms.  cp is the abstract bcrypt
check, fresh_id models the UUID generated for the new SMS and now the
construction clock.  A raised xmlrpc.Fault leaves the pool untouched, so
the function returns the result together with the (then unchanged) pool
state. -/
def xmlrpc_send_sms (cp : String → String → Bool) (cfg : ApiConfig)
    (pool : PoolState) (token sender recipient message fresh_id : String)
    (now : Int) : Except Fault String × PoolState :=
  if !cfg.enable_send_sms then
    (Except.error ⟨405, "This API function is not enabled."⟩, pool)
  else if !(check_token_in_list cp token cfg.token_send_sms) then
    (Except.error ⟨401, "Invalid API token."⟩, pool)
  else
    match cleanup_phone_number recipient with
    | none => (Except.error ⟨400, "Invalid recipient format."⟩, pool)
    | some recipient2 =>
      if sender == "" then
        let res := pool.send_sms (SMSrec.mk fresh_id recipient2 sender message now)
        (Except.ok res.1, res.2)
      else
        match cleanup_phone_number sender with
        | none => (Except.error ⟨400, "Invalid sender format."⟩, pool)
        | some sender2 =>
          let res := pool.send_sms (SMSrec.mk fresh_id recipient2 sender2 message now)
          (Except.ok res.1, res.2)

/-- Embedding of RPCServer.xmlrpc_get_health_state.  The pool, SMTP and
endpoint states arrive as level and optional log pairs; the SMTP log is
prefixed by its level when non-empty; the combined message is built, as
in the source, by joining with the separator the character stream that
itertools.chain.from_iterable produces from the surviving message
strings. -/
def xmlrpc_get_health_state (cp : String → String → Bool)
    (token_list : List String) (token : String)
    (plevel : String) (plogs : Option String)
    (slevel : String) (slogs : Option String)
    (rlevel : String) (rlogs : Option String) :
    Except Fault (String × String) :=
  if !(check_token_in_list cp token token_list) then
    Except.error ⟨401, "Invalid API token."⟩
  else
    let slogs2 : Option String :=
      match slogs with
      | some s => if s == "" then some s else some (slevel ++ ": " ++ s)
      | none => none
    let msgs := ([plogs, slogs2, rlogs].filterMap id).filter (fun s => !(s == ""))
    let combined := String.intercalate "; "
      ((String.join msgs).toList.map (fun c => String.mk [c]))
    Except.ok (get_highest_warning_level [plevel, slevel, rlevel], combined)

/-! ## modem.py: USSD in UCS2 encoding -/

/-- Upper-case hexadecimal digit, as produced by binascii.hexlify followed
by upper() in Modem._send_ussd_ucs2. -/
def hexDigit (n : Nat) : Char :=
  if n < 10 then Char.ofNat (48 + n) else Char.ofNat (55 + n)

/-- Two upper-case hex digits of one byte. -/
def byteToHex (b : Nat) : List Char :=
  [hexDigit (b / 16), hexDigit (b % 16)]

/-- UTF-16 big-endian bytes of one Unicode code point (surrogate pair
above the basic plane), as str.encode with utf-16-be produces. -/
def utf16beBytes (c : Nat) : List Nat :=
  if c < 0x10000 then [c / 256, c % 256]
  else
    let v := c - 0x10000
    let hi := 0xD800 + v / 0x400
    let lo := 0xDC00 + v % 0x400
    [hi / 256, hi % 256, lo / 256, lo % 256]

/-- Embedding of the request side of Modem._send_ussd_ucs2: the clear
text code (a list of Unicode code points) is UTF-16-BE encoded and
hexlified upper-case before being handed to the modem library. -/
def encode_ussd_ucs2 (code : List Nat) : List Char :=
  (code.flatMap utf16beBytes).flatMap byteToHex

/-- Value of one hexadecimal digit, either case, as binascii.unhexlify
accepts. -/
def hexVal (c : Char) : Option Nat :=
  if '0' ≤ c ∧ c ≤ '9' then some (c.toNat - 48)
  else if 'A' ≤ c ∧ c ≤ 'F' then some (c.toNat - 55)
  else if 'a' ≤ c ∧ c ≤ 'f' then some (c.toNat - 87)
  else none

/-- Embedding of binascii.unhexlify: pairs of hex digits to bytes; odd
length or a non-hex character is an error. -/
def unhexlify : List Char → Option (List Nat)
  | [] => some []
  | [_] => none
  | a :: b :: rest => do
    let ha ← hexVal a
    let hb ← hexVal b
    let r ← unhexlify rest
    pure ((16 * ha + hb) :: r)

/-- Big-endian 16-bit units of a byte stream; an odd byte count is a
decode error. -/
def utf16Units : List Nat → Option (List Nat)
  | [] => some []
  | [_] => none
  | a :: b :: rest => (utf16Units rest).map (fun r => (256 * a + b) :: r)

/-- Unicode code points of a UTF-16 unit stream: a high surrogate must be
followed by a low surrogate, a lone low surrogate is an error. -/
def unitsToCodepoints : List Nat → Option (List Nat)
  | [] => some []
  | u :: rest =>
    if 0xD800 ≤ u ∧ u ≤ 0xDBFF then
      match rest with
      | [] => none
      | v :: rest2 =>
        if 0xDC00 ≤ v ∧ v ≤ 0xDFFF then
          (unitsToCodepoints rest2).map
            (fun r => (0x10000 + (u - 0xD800) * 0x400 + (v - 0xDC00)) :: r)
        else none
    else if 0xDC00 ≤ u ∧ u ≤ 0xDFFF then none
    else (unitsToCodepoints rest).map (fun r => u :: r)

/-- Embedding of bytes.decode with utf-16-be. -/
def decode_utf16be (bs : List Nat) : Option (List Nat) :=
  (utf16Units bs).bind unitsToCodepoints

/-- Embedding of the replacement performed by Modem._send_ussd_ucs2 on
the decoded response.  The replacement literal in the source file is the
three-character sequence U+00E2 U+201A U+00AC — the UTF-8 bytes of the
Euro sign re-read in a Windows-1252 round trip — not the Euro sign
itself. -/
def euroFix : List Nat → List Nat
  | 0x1b :: 0x65 :: rest => 0xE2 :: 0x201A :: 0xAC :: euroFix rest
  | c :: rest => c :: euroFix rest
  | [] => []

/-- The replacement as the specification words it: every occurrence of
the GSM 7-bit Euro extension sequence becomes the literal Euro sign
U+20AC.  Kept separate from euroFix so the two can be compared. -/
def euroFixSpec : List Nat → List Nat
  | 0x1b :: 0x65 :: rest => 0x20AC :: euroFixSpec rest
  | c :: rest => c :: euroFixSpec rest
  | [] => []

/-- Embedding of the response side of Modem._send_ussd_ucs2: unhexlify
the response, decode it as UTF-16-BE, then apply the replacement. -/
def decode_ussd_response_ucs2 (response : List Char) : Option (List Nat) :=
  ((unhexlify response).bind decode_utf16be).map euroFix

end SmsGate

namespace SmsGate

/-! ## Helper lemmas about the cleanup loops -/

/-- Modem.cleanup reports true exactly when the id is in the table. -/
theorem ModemRec.cleanup_fst (m : ModemRec) (sms_id : String) :
    (m.cleanup sms_id).1 = m.containsId sms_id := by
  unfold ModemRec.cleanup
  split <;> simp_all

/-- Deleting one id from a modem table does not change membership of a
different id. -/
theorem ModemRec.containsId_cleanup_ne (m : ModemRec) (id1 id2 : String)
    (h : id1 ≠ id2) :
    ((m.cleanup id1).2).containsId id2 = m.containsId id2 := by
  unfold ModemRec.cleanup
  split
  · show ModemRec.containsId ⟨_⟩ id2 = _
    unfold ModemRec.containsId
    simp only [List.any_filter]
    rw [Bool.eq_iff_iff]
    simp only [List.any_eq_true, Bool.and_eq_true, Bool.not_eq_true', beq_iff_eq,
      beq_eq_false_iff_ne, ne_eq]
    constructor
    · rintro ⟨e, he, _, h2⟩
      exact ⟨e, he, h2⟩
    · rintro ⟨e, he, h2⟩
      exact ⟨e, he, by rw [h2]; exact fun hc => h hc.symm, h2⟩
  · rfl

/-- The ids collected by the sent-index loop are exactly the keys of the
entries whose owning modem knew the id at loop entry, provided the
sent-index keys are unique (they are dict keys in the source). -/
theorem cleanupSentLoop_fst (entries : List (String × String)) (ms : String → ModemRec)
    (hnd : (entries.map Prod.fst).Nodup) :
    (cleanupSentLoop entries ms).1
      = (entries.filter (fun e => (ms e.2).containsId e.1)).map Prod.fst := by
  induction entries generalizing ms with
  | nil => rfl
  | cons e rest ih =>
    obtain ⟨sms_id, ident⟩ := e
    simp only [List.map_cons, List.nodup_cons, List.mem_map] at hnd
    obtain ⟨hnotin, hnd2⟩ := hnd
    have hstep :
        cleanupSentLoop ((sms_id, ident) :: rest) ms
          = ((if ((ms ident).cleanup sms_id).1
                then sms_id :: (cleanupSentLoop rest
                  (fun x => if x == ident then ((ms ident).cleanup sms_id).2 else ms x)).1
                else (cleanupSentLoop rest
                  (fun x => if x == ident then ((ms ident).cleanup sms_id).2 else ms x)).1),
              (cleanupSentLoop rest
                (fun x => if x == ident then ((ms ident).cleanup sms_id).2 else ms x)).2) := rfl
    rw [hstep]
    have hcongr : ∀ e2 ∈ rest,
        (((fun x => if x == ident then ((ms ident).cleanup sms_id).2 else ms x) e2.2).containsId e2.1)
          = ((ms e2.2).containsId e2.1) := by
      intro e2 he2
      have hne : sms_id ≠ e2.1 := by
        intro hc
        exact hnotin ⟨e2, he2, hc.symm⟩
      by_cases hid : e2.2 = ident
      · subst hid
        simp only [beq_self_eq_true, if_true]
        exact ModemRec.containsId_cleanup_ne (ms e2.2) sms_id e2.1 hne
      · have : (e2.2 == ident) = false := by
          simp [hid]
        simp [this]
    have ihx := ih (fun x => if x == ident then ((ms ident).cleanup sms_id).2 else ms x) hnd2
    rw [List.filter_congr hcongr] at ihx
    rw [ModemRec.cleanup_fst]
    by_cases hc : (ms ident).containsId sms_id
    · simp only [hc, if_pos, List.filter_cons,
        show ((fun e => (ms e.2).containsId e.1) (sms_id, ident)) = true from hc]
      simp only [ihx, List.map_cons]
    · have hcf : ((ms ident).containsId sms_id) = false := by
        simpa using hc
      simp only [hcf, Bool.false_eq_true, if_false, List.filter_cons,
        show ((fun e => (ms e.2).containsId e.1) (sms_id, ident)) = false from hcf]
      simp only [ihx]

/-! ## Claim theorems: sent-index and inbound-buffer cleanup -/

/-- C1 counterexample: the claim states that Modem.cleanup returns true
only for ids whose delivery was reported DELIVERED.  For a modem whose
table holds the id id0 with status still ENROUTE, cleanup returns true
although get_delivery_status reports false. -/
theorem cleanup_counterexample :
    ((ModemRec.mk [("id0", SentStatus.enroute)]).cleanup "id0").1 = true ∧
    (ModemRec.mk [("id0", SentStatus.enroute)]).get_delivery_status "id0" = false := by
  refine ⟨by decide, by decide⟩

/-- C1 amended: each sent SMS id is recorded under exactly one worker
identifier in the sent-index association list; Modem.cleanup(sms_id)
returns true exactly when sms_id is present in the modem's sent-SMS table
(regardless of reported delivery status), deleting the entry; and the
pool's _cleanup deletes a sent-index entry exactly when that call
returned true, i.e. it keeps exactly the entries whose owning modem did
not know the id. -/
theorem cleanup_forgets_known_ids :
    (∀ (m : ModemRec) (sms_id : String), (m.cleanup sms_id).1 = m.containsId sms_id) ∧
    (∀ pool : PoolState, (pool.sent_sms.map Prod.fst).Nodup →
      pool.cleanupSent.sent_sms
        = pool.sent_sms.filter (fun e => !((pool.modems e.2).containsId e.1))) := by
  refine ⟨ModemRec.cleanup_fst, ?_⟩
  intro pool hnd
  show pool.sent_sms.filter _ = pool.sent_sms.filter _
  apply List.filter_congr
  intro e he
  rw [cleanupSentLoop_fst pool.sent_sms pool.modems hnd]
  have hcontains :
      ((pool.sent_sms.filter (fun e2 => (pool.modems e2.2).containsId e2.1)).map
          Prod.fst).contains e.1
        = (pool.modems e.2).containsId e.1 := by
    rw [Bool.eq_iff_iff]
    simp only [List.contains_iff_exists_mem_beq, beq_iff_eq, List.mem_map,
      List.mem_filter]
    constructor
    · rintro ⟨a, ⟨e2, ⟨he2m, he2p⟩, he2f⟩, hae⟩
      have : e = e2 := List.inj_on_of_nodup_map hnd he he2m (by rw [he2f, hae])
      rw [this]
      exact he2p
    · intro hp
      exact ⟨e.1, ⟨e, ⟨he, hp⟩, rfl⟩, rfl⟩
  rw [hcontains]

/-- Witness for C1: a concrete pool with two sent-index entries; the
modem behind M1 still knows id a1 (status ENROUTE), the modem behind M2
does not know b2, so cleanup removes exactly the a1 entry. -/
theorem cleanup_forgets_known_ids_witness :
    (PoolState.mk (fun _ => ModemRec.mk [("a1", SentStatus.enroute)]) []
        [("a1", "M1"), ("b2", "M2")] (fun _ => 0) []).cleanupSent.sent_sms
      = [("b2", "M2")] := by
  rw [cleanup_forgets_known_ids.2
    (PoolState.mk (fun _ => ModemRec.mk [("a1", SentStatus.enroute)]) []
      [("a1", "M1"), ("b2", "M2")] (fun _ => 0) []) (by decide)]
  decide

/-- C7: after the pool's _cleanup runs, every inbound SMS buffered under
an identifier whose age now - timestamp exceeds 60 seconds has been
deleted, and every buffered SMS with age at most 60 seconds remains. -/
theorem cleanup_buffer_ttl (now : Int) (pool : PoolState) (ident : String)
    (lst : List (String × SMSrec)) (h : (ident, lst) ∈ pool.buffered_sms) :
    ∃ lst2, (ident, lst2) ∈ (pool.cleanup now).buffered_sms ∧
      ∀ e, e ∈ lst2 ↔ e ∈ lst ∧ now - e.2.timestamp ≤ 60 := by
  refine ⟨lst.filter (fun e => !(decide (60 < now - e.2.timestamp))), ?_, ?_⟩
  · unfold PoolState.cleanup PoolState.cleanupBuffered
    simp only [List.mem_map]
    exact ⟨(ident, lst), h, rfl⟩
  · intro e
    simp only [List.mem_filter, Bool.not_eq_true', decide_eq_false_iff_not, not_lt]

/-- Witness for C7: at clock value 100, a bucket holding one SMS of age
100 and one of age 10 is rewritten so that exactly the old one is
dropped. -/
theorem cleanup_buffer_ttl_witness :
    ∃ lst2,
      ("A", lst2) ∈ ((PoolState.mk (fun _ => ModemRec.mk []) [] [] (fun _ => 0)
        [("A", [("i1", SMSrec.mk "i1" "+41791" "+41792" "hello" 0),
                ("i2", SMSrec.mk "i2" "+41791" "+41793" "fresh" 90)])]).cleanup
          100).buffered_sms ∧
      ∀ e, e ∈ lst2 ↔
        (e ∈ [("i1", SMSrec.mk "i1" "+41791" "+41792" "hello" 0),
              ("i2", SMSrec.mk "i2" "+41791" "+41793" "fresh" 90)] ∧
          100 - e.2.timestamp ≤ 60) :=
  cleanup_buffer_ttl 100
    (PoolState.mk (fun _ => ModemRec.mk []) [] [] (fun _ => 0)
      [("A", [("i1", SMSrec.mk "i1" "+41791" "+41792" "hello" 0),
              ("i2", SMSrec.mk "i2" "+41791" "+41793" "fresh" 90)])])
    "A"
    [("i1", SMSrec.mk "i1" "+41791" "+41792" "hello" 0),
     ("i2", SMSrec.mk "i2" "+41791" "+41793" "fresh" 90)]
    (by decide)

/-! ## Claim theorems: signal mapping and self-test schedule -/

/-- C8: the claim states that get_current_signal_dB returns -113 dBm for
each of the RSSI values 0, 1 and 99.  The source maps 99 into the branch
for values of at least 31 and returns -51; the RSSI scale documented in
the function docstring lists 99 as not known, i.e. as the unknown value
for which the source otherwise returns -113.  This theorem evaluates the
embedded source at the failing input 99, at 0 and 1 (where the claim
holds), and checks the claimed monotonicity on RSSI 2..31, which does
hold. -/
theorem signal_dB_maps_99_to_minus51 :
    get_current_signal_dB 0 = -113 ∧
    get_current_signal_dB 1 = -113 ∧
    get_current_signal_dB 99 = -51 ∧
    ¬ get_current_signal_dB 99 = -113 ∧
    ((List.range 29).all (fun k =>
      get_current_signal_dB (2 + (k : Int)) ≤ get_current_signal_dB (3 + (k : Int))) = true) := by
  refine ⟨by decide, by decide, by decide, by decide, by decide⟩

/-- C6: the claim states that for a worker whose sms_self_test_interval is
weekly, the schedule predicate is true exactly on Mondays.  In the source
the weekly branch evaluates now.weekday == 1 with weekday left uninvoked,
so the predicate is false on every date; the daily and monthly branches
behave as claimed.  This theorem evaluates the embedded predicate on a
Monday (the failing input, weekday index 0 in the Python convention, with
index 1 also shown) and records that the weekly predicate is false on all
dates. -/
theorem weekly_self_test_never_matches :
    day_matches .weekly ⟨0, 12⟩ = false ∧
    day_matches .weekly ⟨1, 13⟩ = false ∧
    (∀ d : HDate, day_matches .weekly d = false) ∧
    day_matches .daily ⟨3, 25⟩ = true ∧
    day_matches .monthly ⟨4, 1⟩ = true ∧
    day_matches .monthly ⟨4, 2⟩ = false := by
  refine ⟨rfl, rfl, fun d => rfl, rfl, rfl, rfl⟩

/-- C9: for every ModemConfig whose enabled field is false, verify returns
true without examining any other field. -/
theorem verify_disabled_accepts (c : ModemConfig) (h : c.enabled = false) :
    c.verify = true := by
  unfold ModemConfig.verify
  simp [h]

/-- Witness for C9: a disabled config that violates every other shape rule
at once (critical threshold above warning, malformed prefix and phone
number, unparsable self-test interval, wildcard port without IMEI) is
still accepted. -/
theorem verify_disabled_accepts_witness :
    (ModemConfig.mk "m0" false "/dev/ttyACM*" "not a number" none none
      (1 : Rat) (5 : Rat) ["bad pref!"] 600 "yearly" none).verify = true :=
  verify_disabled_accepts _ rfl

/-! ## Claim theorems: router key enumeration -/

/-- C2 counterexample: the claim states that for the destination number
"+49" the tested route keys are the strict prefixes "+4" and "+", and
that the full number "+49" is never used as a lookup key.  The embedded
source loop tests "+49" (the full number) and "+4", and never tests the
single leading character. -/
theorem testedKeys_counterexample :
    testedKeys ['+', '4', '9'] = [['+', '4', '9'], ['+', '4']] ∧
    specTestedKeys ['+', '4', '9'] = [['+', '4'], ['+']] ∧
    ¬ testedKeys ['+', '4', '9'] = specTestedKeys ['+', '4', '9'] ∧
    ['+', '4', '9'] ∈ testedKeys ['+', '4', '9'] ∧
    ['+'] ∉ testedKeys ['+', '4', '9'] := by
  refine ⟨by decide, by decide, by decide, by decide, by decide⟩

/-- C2 amended: for every destination number p with at least two
characters, SmsRouter.get tests, for i = 0 .. |p|-2, the key
p[0 : |p|-i]; the tested keys are exactly the leading prefixes of p of
length 2 up to |p|, so the full number p itself is used as a lookup key
and the single leading character never is, and the candidate set consists
of the identifiers registered under a tested key whose health is OK. -/
theorem testedKeys_characterization (r : SmsRouter) (p k : List Char)
    (h : 2 ≤ p.length) :
    (k ∈ testedKeys p ↔ ∃ n, 2 ≤ n ∧ n ≤ p.length ∧ k = p.take n) ∧
    p ∈ testedKeys p ∧
    p.take 1 ∉ testedKeys p ∧
    (∀ c, c ∈ r.candidates p ↔
      ∃ k2, k2 ∈ testedKeys p ∧ c ∈ (r.routes.lookup k2).getD [] ∧
        r.health c = "OK") := by
  have hmem : ∀ k2 : List Char,
      k2 ∈ testedKeys p ↔ ∃ n, 2 ≤ n ∧ n ≤ p.length ∧ k2 = p.take n := by
    intro k2
    unfold testedKeys
    simp only [List.mem_map, List.mem_range]
    constructor
    · rintro ⟨i, hi, hk⟩
      exact ⟨p.length - i, by omega, by omega, hk.symm⟩
    · rintro ⟨n, hn2, hnl, hk⟩
      exact ⟨p.length - n, by omega, by rw [hk]; congr 1; omega⟩
  refine ⟨hmem k, ?_, ?_, ?_⟩
  · rw [hmem p]
    exact ⟨p.length, h, le_refl _, (List.take_length p).symm⟩
  · rw [hmem (p.take 1)]
    rintro ⟨n, hn2, hnl, heq⟩
    have h1 : (p.take 1).length = 1 := by
      rw [List.length_take]; omega
    have h2 : (p.take n).length = n := by
      rw [List.length_take]; omega
    rw [heq] at h1
    omega
  · intro c
    unfold SmsRouter.candidates
    simp only [List.mem_flatMap, List.mem_filter, beq_iff_eq, and_assoc]

/-! ## Claim theorem: USSD in UCS2 encoding -/

/-- C5: the claim states that a UCS2 worker hex-encodes the USSD code as
UTF-16-BE (it does: *100# becomes 002A0031003000300023), hex-decodes the
response as UTF-16-BE (it does: 0031002E00350030 decodes to 1.50), and
replaces the GSM 7-bit Euro extension sequence with the literal Euro
sign.  The source instead substitutes the three-character sequence
U+00E2 U+201A U+00AC, the Windows-1252 mojibake of the Euro sign, as the
evaluation at the failing response 001B0065 shows; the surrounding
comment says the substitution exists to carry the Euro currency sign
through the RPC layer, so the literal is a slip. -/
theorem ussd_ucs2_euro_mojibake :
    encode_ussd_ucs2 ([42, 49, 48, 48, 35]) = "002A0031003000300023".toList ∧
    decode_ussd_response_ucs2 "0031002E00350030".toList
      = some [49, 46, 53, 48] ∧
    String.mk (([49, 46, 53, 48] : List Nat).map Char.ofNat) = "1.50" ∧
    decode_ussd_response_ucs2 "001B0065".toList
      = some [0xE2, 0x201A, 0xAC] ∧
    ¬ decode_ussd_response_ucs2 "001B0065".toList = some [0x20AC] ∧
    euroFixSpec [0x1b, 0x65] = [0x20AC] := by
  refine ⟨by decide, by decide, by decide, by decide, by decide, by decide⟩

/-! ## Claim theorems: RPC endpoint -/

/-- C4: a send_sms RPC call whose presented token matches no bcrypt hash
in the configured send_sms token list (with the feature enabled, so the
call reaches the token check) fails with fault code 401, and the pool —
outbound queue, sent index and sent statistics included — is returned
unchanged. -/
theorem send_sms_bad_token (cp : String → String → Bool) (cfg : ApiConfig)
    (pool : PoolState) (token sender recipient message fresh_id : String)
    (now : Int)
    (hEn : cfg.enable_send_sms = true)
    (hTok : check_token_in_list cp token cfg.token_send_sms = false) :
    xmlrpc_send_sms cp cfg pool token sender recipient message fresh_id now
      = (Except.error ⟨401, "Invalid API token."⟩, pool) := by
  unfold xmlrpc_send_sms
  rw [hEn, hTok]
  rfl

/-- Witness for C4: a concrete call with the wrong token against a config
whose token list holds one hash that only the token secret passes; the
call returns fault 401 and the concrete pool comes back unchanged. -/
theorem send_sms_bad_token_witness :
    xmlrpc_send_sms (fun t _ => t == "secret")
        (ApiConfig.mk true ["bcrypt-hash-of-secret"])
        (PoolState.mk (fun _ => ModemRec.mk []) [] [] (fun _ => 0) [])
        "wrong" "" "+4915112345678" "hi" "id-1" 0
      = (Except.error ⟨401, "Invalid API token."⟩,
        PoolState.mk (fun _ => ModemRec.mk []) [] [] (fun _ => 0) []) :=
  send_sms_bad_token (fun t _ => t == "secret")
    (ApiConfig.mk true ["bcrypt-hash-of-secret"])
    (PoolState.mk (fun _ => ModemRec.mk []) [] [] (fun _ => 0) [])
    "wrong" "" "+4915112345678" "hi" "id-1" 0 rfl (by decide)

/-- C10: check_token_in_list returns false for every token when the token
list is empty, and consequently a send_sms call (feature enabled) against
an empty configured token list is rejected with fault 401 for every
caller, leaving the pool unchanged. -/
theorem empty_token_list_denies :
    (∀ (cp : String → String → Bool) (token : String),
      check_token_in_list cp token [] = false) ∧
    (∀ (cp : String → String → Bool) (cfg : ApiConfig) (pool : PoolState)
      (token sender recipient message fresh_id : String) (now : Int),
      cfg.enable_send_sms = true → cfg.token_send_sms = [] →
      xmlrpc_send_sms cp cfg pool token sender recipient message fresh_id now
        = (Except.error ⟨401, "Invalid API token."⟩, pool)) := by
  constructor
  · intro cp token
    rfl
  · intro cp cfg pool token sender recipient message fresh_id now hEn hEmpty
    unfold xmlrpc_send_sms
    rw [hEn, hEmpty]
    rfl

/-- Witness for C10: a concrete caller is denied with fault 401 when the
configured send_sms token list is empty, whatever token it presents. -/
theorem empty_token_list_denies_witness :
    xmlrpc_send_sms (fun _ _ => true) (ApiConfig.mk true [])
        (PoolState.mk (fun _ => ModemRec.mk []) [] [] (fun _ => 0) [])
        "any-token" "" "+4915112345678" "hi" "id-2" 0
      = (Except.error ⟨401, "Invalid API token."⟩,
        PoolState.mk (fun _ => ModemRec.mk []) [] [] (fun _ => 0) []) :=
  empty_token_list_denies.2 (fun _ _ => true) (ApiConfig.mk true [])
    (PoolState.mk (fun _ => ModemRec.mk []) [] [] (fun _ => 0) [])
    "any-token" "" "+4915112345678" "hi" "id-2" 0 rfl rfl

/-- C3: the claim states that get_health_state returns the maximum of the
three component levels together with the non-empty component messages
joined whole by the separator.  The level part holds, but the source
feeds the messages through itertools.chain.from_iterable, which iterates
strings character by character, so the separator is inserted between
every two characters: with a single pool message ab the endpoint returns
a; b rather than ab.  This theorem evaluates the embedded source at that
failing input and records the level aggregation on sample level lists. -/
theorem get_health_state_char_join :
    xmlrpc_get_health_state (fun _ _ => true) ["h1"] "tok"
        "OK" (some "ab") "OK" none "OK" none
      = Except.ok ("OK", "a; b") ∧
    ¬ ("a; b" = "ab") ∧
    xmlrpc_get_health_state (fun _ _ => true) ["h1"] "tok"
        "WARNING" (some "pool degraded") "CRITICAL" (some "smtp down") "OK" none
      = Except.ok ("CRITICAL",
        "p; o; o; l;  ; d; e; g; r; a; d; e; d; C; R; I; T; I; C; A; L; :;  ; s; m; t; p;  ; d; o; w; n") ∧
    get_highest_warning_level ["OK", "WARNING", "CRITICAL"] = "CRITICAL" ∧
    get_highest_warning_level ["WARNING", "OK", "OK"] = "WARNING" ∧
    get_highest_warning_level ["OK", "OK", "OK"] = "OK" := by
  refine ⟨rfl, by decide, rfl, rfl, rfl, rfl⟩

/-- Witness for C2: the characterization applied to the concrete number
"+4915199999999" on a router with one healthy identifier registered for
the key "+49", showing in particular that the full number is a tested
key. -/
theorem testedKeys_characterization_witness :
    ['+', '4', '9', '1'] ∈ testedKeys ['+', '4', '9', '1'] ∧
    (['+', '4', '9', '1'] : List Char).take 1 ∉ testedKeys ['+', '4', '9', '1'] :=
  let r : SmsRouter :=
    ⟨[(['+', '4', '9'], ["A"])], fun _ => (1 : Rat), fun _ => "OK"⟩
  let thm := testedKeys_characterization r ['+', '4', '9', '1'] ['+', '4'] (by decide)
  ⟨thm.2.1, thm.2.2.1⟩

end SmsGate
